import Mathlib

/-!
Verification development for the consensus core of jinbio/jbcoin
(difficulty retargeting, proof-of-work check, proof-of-stake kernel check).

The definitions below are a shallow embedding of `src/pow.cpp` and
`src/pos.cpp`.  Machine integers are modelled as `Nat`/`Int`:

* `uint256` / `arith_uint256` values are `Nat`, with `% 2^256` applied
  exactly where the 256-bit arithmetic can wrap (`<<=`, `*=`);
* `int64_t` values are `Int`; C++ truncating division on `int64_t` is
  `Int.tdiv`, and the implicit `int64_t -> uint64_t` conversion used when
  an `int64_t` meets an `arith_uint256` operator is `toUInt64`
  (reduction modulo `2^64`, i.e. `Int.emod`);
* bit operations on unsigned words are written arithmetically
  (`>> k` is `/ 2^k`, `<< k` is `* 2^k`, `& (2^k - 1)` is `% 2^k`,
  and `|=` of a value into the disjoint high byte is `+`);
* the cryptographic hash is an arbitrary function from serialized field
  lists to `Nat`; the `uint256` digest type is modelled by reducing the
  hash output modulo `2^256`.
-/

namespace JBCoin

/-- Fuel-bounded binary length, structurally recursive so that the kernel
can evaluate it.  `bitsRec fuel x` is the position of the highest set bit
plus one (0 for x = 0), provided `x < 2 ^ fuel`. -/
def bitsRec : Nat → Nat → Nat
  | 0, _ => 0
  | fuel + 1, x => if x = 0 then 0 else bitsRec fuel (x / 2) + 1

/-- Model of `base_uint<256>::bits()`: the bit length of a 256-bit value. -/
def bits (x : Nat) : Nat := bitsRec 256 x

/-- Model of the implicit C++ conversion `int64_t -> uint64_t`
(value reduced modulo `2^64`). -/
def toUInt64 (x : Int) : Nat := (x % (2 ^ 64 : Int)).toNat

/-- Model of the implicit C++ conversion `int64_t -> uint32_t`
(value reduced modulo `2^32`).  `arith_uint256` has a dedicated
`operator*=(uint32_t)` overload, and the standard integral conversion to
`uint32_t` beats the user-defined conversion to `base_uint`, so an
`int64_t` factor is truncated to 32 bits. -/
def toUInt32 (x : Int) : Nat := (x % (2 ^ 32 : Int)).toNat

theorem bitsRec_le_iff : ∀ (fuel x k : Nat), x < 2 ^ fuel →
    (bitsRec fuel x ≤ k ↔ x < 2 ^ k)
  | 0, x, k, h => by
    have hx : x = 0 := by simpa using h
    subst hx
    simp [bitsRec, Nat.two_pow_pos k]
  | fuel + 1, x, k, h => by
    by_cases hx0 : x = 0
    · subst hx0
      simp [bitsRec, Nat.two_pow_pos k]
    · have hdiv : x / 2 < 2 ^ fuel := by
        refine (Nat.div_lt_iff_lt_mul (by norm_num : 0 < 2)).2 ?_
        calc x < 2 ^ (fuel + 1) := h
        _ = 2 ^ fuel * 2 := by rw [pow_succ]
      rw [show bitsRec (fuel + 1) x = bitsRec fuel (x / 2) + 1 by
        simp [bitsRec, hx0]]
      cases k with
      | zero =>
        simp only [pow_zero]
        constructor
        · intro hk; omega
        · intro hk; omega
      | succ k =>
        rw [Nat.succ_le_succ_iff, bitsRec_le_iff fuel (x / 2) k hdiv,
          Nat.div_lt_iff_lt_mul (by norm_num : 0 < 2), pow_succ]

theorem bits_le_iff {x : Nat} (hx : x < 2 ^ 256) (k : Nat) :
    bits x ≤ k ↔ x < 2 ^ k :=
  bitsRec_le_iff 256 x k hx

theorem lt_two_pow_bits {x : Nat} (hx : x < 2 ^ 256) : x < 2 ^ bits x :=
  (bits_le_iff hx (bits x)).1 le_rfl

/-- Consensus parameters (the fields of `Consensus::Params` consumed by
`pow.cpp` and `pos.cpp`).  `powLimit` and `posLimit` are the `uint256`
ceilings; the time fields are `int64_t`. -/
structure ConsensusParams where
  powLimit : Nat
  posLimit : Nat
  nPowTargetSpacing : Int
  nPowTargetTimespan : Int
  nStakeMinAge : Int
  nStakeTimestampMask : Int

/-- Modelled from the spec: `Consensus::Params::DifficultyAdjustmentInterval`
(declared in the consensus parameters header, which is not part of the two
source files) is the retarget interval, the number of blocks between
difficulty recalculations, `nPowTargetTimespan / nPowTargetSpacing` with
truncating `int64_t` division. -/
def ConsensusParams.DifficultyAdjustmentInterval (params : ConsensusParams) : Int :=
  Int.tdiv params.nPowTargetTimespan params.nPowTargetSpacing

/-- Chain-index entry: the subset of `CBlockIndex` read by the two source
files: the previous-block link, height, time, compact target, stake
modifier, and whether the block is proof of stake. -/
inductive CBlockIndex : Type where
  | mk (pprev : Option CBlockIndex) (nHeight : Int) (nTime : Nat) (nBits : Nat)
      (nStakeModifier : Nat) (fProofOfStake : Bool) : CBlockIndex

def CBlockIndex.pprev : CBlockIndex → Option CBlockIndex
  | .mk p _ _ _ _ _ => p

def CBlockIndex.nHeight : CBlockIndex → Int
  | .mk _ h _ _ _ _ => h

def CBlockIndex.nTime : CBlockIndex → Nat
  | .mk _ _ t _ _ _ => t

def CBlockIndex.nBits : CBlockIndex → Nat
  | .mk _ _ _ b _ _ => b

def CBlockIndex.nStakeModifier : CBlockIndex → Nat
  | .mk _ _ _ _ m _ => m

def CBlockIndex.IsProofOfStake : CBlockIndex → Bool
  | .mk _ _ _ _ _ f => f

/-- Model of `CBlockIndex::GetBlockTime`: the `uint32` timestamp widened
to `int64_t`. -/
def CBlockIndex.GetBlockTime (b : CBlockIndex) : Int := (b.nTime : Int)

/-- Block header view: `pow.cpp` reads only the candidate timestamp. -/
structure CBlockHeader where
  nTime : Nat

def CBlockHeader.GetBlockTime (b : CBlockHeader) : Int := (b.nTime : Int)

/-- Model of `arith_uint256::SetCompact`: decode a 32-bit compact target.
`nSize` is the exponent byte (`nCompact >> 24`), `nWord` the 23-bit
mantissa (`nCompact & 0x007fffff`); a left shift of a 256-bit value wraps
modulo `2^256`. -/
def setCompact (nCompact : Nat) : Nat :=
  let nSize := nCompact / 2 ^ 24
  let nWord := nCompact % 2 ^ 23
  if nSize ≤ 3 then nWord / 2 ^ (8 * (3 - nSize))
  else (nWord * 2 ^ (8 * (nSize - 3))) % 2 ^ 256

/-- The `pfNegative` output of `SetCompact`: mantissa nonzero and the sign
bit `0x00800000` (bit 23) set. -/
def compactNegative (nCompact : Nat) : Bool :=
  nCompact % 2 ^ 23 ≠ 0 && nCompact / 2 ^ 23 % 2 = 1

/-- The `pfOverflow` output of `SetCompact`. -/
def compactOverflow (nCompact : Nat) : Bool :=
  let nSize := nCompact / 2 ^ 24
  let nWord := nCompact % 2 ^ 23
  nWord ≠ 0 && (nSize > 34 || (nWord > 0xff && nSize > 33) || (nWord > 0xffff && nSize > 32))

/-- The `nSize` local of `arith_uint256::GetCompact`: `(bits() + 7) / 8`. -/
def getCompactSize (x : Nat) : Nat := (bits x + 7) / 8

/-- The `nCompact` local of `arith_uint256::GetCompact` before the sign-bit
adjustment: the value shifted so that the significant bytes land in the low
3 bytes (`GetLow64()` is `% 2^64`, the `uint32_t` assignment is `% 2^32`). -/
def getCompactMantissa (x : Nat) : Nat :=
  if getCompactSize x ≤ 3 then (x % 2 ^ 64 * 2 ^ (8 * (3 - getCompactSize x))) % 2 ^ 32
  else x / 2 ^ (8 * (getCompactSize x - 3)) % 2 ^ 64 % 2 ^ 32

/-- Model of `arith_uint256::GetCompact` (with `fNegative = false`, as at
every call site): if bit 23 of the mantissa is set, shift the mantissa
down one byte and bump the exponent; then pack the exponent into the top
byte (the mantissa occupies the low 24 bits, so `|=` is `+`). -/
def getCompact (x : Nat) : Nat :=
  if getCompactMantissa x / 2 ^ 23 % 2 = 1 then
    getCompactMantissa x / 2 ^ 8 + (getCompactSize x + 1) * 2 ^ 24
  else
    getCompactMantissa x + getCompactSize x * 2 ^ 24

/-- Model of `GetTargetLimit` in `pow.cpp`: select the PoW or PoS ceiling
by the `fProofOfStake` flag.  The `nTime` argument is unused, exactly as in
the source. -/
def GetTargetLimit (nTime : Int) (fProofOfStake : Bool) (params : ConsensusParams) : Nat :=
  if fProofOfStake then params.posLimit else params.powLimit

/-- The timespan clamp at the top of `CalculateNextWorkRequired`:
`nActualTimespan` limited to `[nPowTargetTimespan/4, nPowTargetTimespan*4]`
(truncating `int64_t` division). -/
def clampTimespan (nActualTimespan : Int) (params : ConsensusParams) : Int :=
  let t1 := if nActualTimespan < Int.tdiv params.nPowTargetTimespan 4 then
    Int.tdiv params.nPowTargetTimespan 4 else nActualTimespan
  if t1 > params.nPowTargetTimespan * 4 then params.nPowTargetTimespan * 4 else t1

/-- The `fShift` flag of `CalculateNextWorkRequired`:
`bnNew.bits() > bnPowLimit.bits() - 1`, where `bits()` returns
`unsigned int`, so the subtraction wraps modulo `2^32` when the limit has
bit length zero. -/
def fShiftFlag (bnNew bnPowLimit : Nat) : Bool :=
  bits bnNew > (bits bnPowLimit + (2 ^ 32 - 1)) % 2 ^ 32

/-- Model of `CalculateNextWorkRequired` in `pow.cpp`: clamp the observed
timespan, decode the last compact target, optionally pre-shift by one bit
to avoid 256-bit overflow, scale by `actual / expected` timespan, undo the
shift, clamp to the selected ceiling, and re-encode.  The `int64_t`
timespan factor is truncated to `uint32_t` by the `*=` overload
(`toUInt32`), the divisor is converted to `uint64_t` by the `/=` overload
(`toUInt64`), and the 256-bit arithmetic itself wraps modulo `2^256`. -/
def CalculateNextWorkRequired (pindexLast : CBlockIndex) (nFirstBlockTime : Int)
    (params : ConsensusParams) (fProofOfStake : Bool) : Nat :=
  let nActualTimespan := clampTimespan (pindexLast.GetBlockTime - nFirstBlockTime) params
  let bnNew0 := setCompact pindexLast.nBits
  let bnPowLimit := GetTargetLimit pindexLast.GetBlockTime fProofOfStake params
  let fShift := fShiftFlag bnNew0 bnPowLimit
  let bnNew1 := if fShift then bnNew0 / 2 else bnNew0
  let bnNew2 := bnNew1 * toUInt32 nActualTimespan % 2 ^ 256
  let bnNew3 := bnNew2 / toUInt64 params.nPowTargetTimespan
  let bnNew4 := if fShift then bnNew3 * 2 % 2 ^ 256 else bnNew3
  let bnNew5 := if bnNew4 ≤ 0 ∨ bnNew4 > bnPowLimit then bnPowLimit else bnNew4
  getCompact bnNew5

/-- Modelled from the spec: `GetLastBlockIndex` (defined outside the two
source files) walks the previous-block links back while the block's
proof-of-stake flag differs from the requested one and a predecessor
exists, and returns the block it stops at. -/
def GetLastBlockIndexGo : CBlockIndex → Bool → CBlockIndex
  | .mk none h t b m f, _ => .mk none h t b m f
  | .mk (some p) h t b m f, fProofOfStake =>
    if f ≠ fProofOfStake then GetLastBlockIndexGo p fProofOfStake
    else .mk (some p) h t b m f

/-- Modelled from the spec: the nullable-pointer wrapper of
`GetLastBlockIndex`. -/
def GetLastBlockIndex (pindex : Option CBlockIndex) (fProofOfStake : Bool) :
    Option CBlockIndex :=
  pindex.map (fun b => GetLastBlockIndexGo b fProofOfStake)

/-- Modelled from the spec: `CBlockIndex::GetAncestor` (defined outside the
two source files) returns the chain-index entry at the requested height by
walking the previous-block links, and null when the height is above the
block's own height, negative, or absent from the ancestor chain. -/
def CBlockIndex.GetAncestor : CBlockIndex → Int → Option CBlockIndex
  | .mk pprev h t b m f, height =>
    if height > h ∨ height < 0 then none
    else if h = height then some (.mk pprev h t b m f)
    else match pprev with
      | none => none
      | some p => p.GetAncestor height

/-- Model of `GetNextWorkRequired` in `pow.cpp`.  `BLOCK_HEIGHT_INIT` is an
external constant (from the consensus header), passed explicitly.  The
result is `none` exactly when the `assert(pindexFirst)` in the source would
fire; every returned target is `some`. -/
def GetNextWorkRequired (BLOCK_HEIGHT_INIT : Int) (pindexLast : Option CBlockIndex)
    (pblock : CBlockHeader) (fProofOfStake : Bool) (params : ConsensusParams) :
    Option Nat :=
  if fProofOfStake then some (getCompact params.posLimit) else
  let nProofOfWorkLimit := getCompact params.powLimit
  match pindexLast with
  | none => some nProofOfWorkLimit
  | some last =>
    if last.nHeight ≤ BLOCK_HEIGHT_INIT then some nProofOfWorkLimit
    else match GetLastBlockIndex (some last) false with
    | none => some nProofOfWorkLimit
    | some pindexPrev =>
      match pindexPrev.pprev with
      | none => some nProofOfWorkLimit
      | some _ =>
        if pblock.GetBlockTime > last.GetBlockTime + params.nPowTargetSpacing * 5 then
          some nProofOfWorkLimit
        else if pblock.GetBlockTime < last.GetBlockTime + Int.tdiv params.nPowTargetSpacing 3 then
          some (last.nBits / 2)
        else
          let nHeightFirst0 := last.nHeight - (params.DifficultyAdjustmentInterval - 1)
          let nHeightFirst := if nHeightFirst0 < 0 then 1 else nHeightFirst0
          match last.GetAncestor nHeightFirst with
          | none => none
          | some pindexFirst =>
            some (CalculateNextWorkRequired last pindexFirst.GetBlockTime params fProofOfStake)

/-- Model of `CheckProofOfWork` in `pow.cpp`. -/
def CheckProofOfWork (hash : Nat) (nBits : Nat) (params : ConsensusParams) : Bool :=
  let bnTarget := setCompact nBits
  if compactNegative nBits = true ∨ bnTarget = 0 ∨ compactOverflow nBits = true ∨
      bnTarget > params.powLimit then false
  else if hash > bnTarget then false
  else true

/-- One field written into a `CHashWriter` stream in `pos.cpp`: either a
`uint256` or a 32-bit unsigned integer.  The hash preimage is the list of
fields in stream order. -/
inductive SerItem : Type where
  | u256 (x : Nat) : SerItem
  | u32 (x : Nat) : SerItem
deriving DecidableEq

/-- The `uint256` digest of a `CHashWriter` stream: an abstract hash
function applied to the field list, reduced modulo `2^256` to model the
256-bit digest type.  Every theorem below quantifies over `Hash`. -/
def streamHash (Hash : List SerItem → Nat) (fields : List SerItem) : Nat :=
  Hash fields % 2 ^ 256

/-- Outpoint: transaction hash (`uint256`) and output index (`uint32_t`). -/
structure COutPoint where
  hash : Nat
  n : Nat

/-- Transaction output: only the amount (`CAmount`, an `int64_t`) is read. -/
structure CTxOut where
  nValue : Int

/-- The subset of `CCoins` read by `CheckStakeKernelHash`: the outputs and
the transaction time (`unsigned int`). -/
structure CCoins where
  vout : List CTxOut
  nTime : Nat

/-- Transaction view used by `CheckKernel`: the `CCoins(*txPrev, height)`
snapshot keeps the outputs and the transaction time. -/
structure CTransactionM where
  vout : List CTxOut
  nTime : Nat

/-- The `CCoins(*txPrev, pindexPrev->nHeight)` coin snapshot built in
`CheckKernel` (the height argument does not affect the fields the kernel
check reads). -/
def CCoinsOfTx (tx : CTransactionM) : CCoins := ⟨tx.vout, tx.nTime⟩

/-- Model of `ComputeStakeModifier` in `pos.cpp`: zero for the genesis
block, otherwise the hash of the kernel followed by the previous block's
stake modifier. -/
def ComputeStakeModifier (Hash : List SerItem → Nat) (pindexPrev : Option CBlockIndex)
    (kernel : Nat) : Nat :=
  match pindexPrev with
  | none => 0
  | some prev => streamHash Hash [SerItem.u256 kernel, SerItem.u256 prev.nStakeModifier]

/-- Model of `CheckCoinStakeTimestamp` in `pos.cpp`.  The `int64_t` mask
test uses `Int.land`. -/
def CheckCoinStakeTimestamp (params : ConsensusParams) (nTimeBlock nTimeTx : Int) : Bool :=
  if ¬(nTimeBlock = nTimeTx) ∧ Int.land nTimeTx params.nStakeTimestampMask = 0 then false
  else true

/-- Model of `CheckStakeBlockTimestamp` in `pos.cpp`: the header-only check
calls `CheckCoinStakeTimestamp` with the block time in both positions. -/
def CheckStakeBlockTimestamp (params : ConsensusParams) (nTimeBlock : Int) : Bool :=
  CheckCoinStakeTimestamp params nTimeBlock nTimeBlock

/-- The kernel-hash preimage of `CheckStakeKernelHash`, in the exact
`CHashWriter` stream order of the source:
`nStakeModifier << txPrev->nTime << prevout.hash << prevout.n << nTimeTx`. -/
def stakeKernelFields (nStakeModifier txPrevTime prevoutHash prevoutN nTimeTx : Nat) :
    List SerItem :=
  [SerItem.u256 nStakeModifier, SerItem.u32 txPrevTime, SerItem.u256 prevoutHash,
    SerItem.u32 prevoutN, SerItem.u32 nTimeTx]

/-- Model of `CheckStakeKernelHash` in `pos.cpp`.  `params` stands for the
global `Params().GetConsensus()`; `error(...)` returns false.  The staked
value (`int64_t`) meets the 256-bit division as a `uint64_t`. -/
def CheckStakeKernelHash (Hash : List SerItem → Nat) (params : ConsensusParams)
    (pindexPrev : CBlockIndex) (nBits : Nat) (blockFrom : CBlockIndex)
    (txPrev : CCoins) (prevout : COutPoint) (nTimeTx : Nat) : Bool :=
  let nValueIn : Int := (txPrev.vout.getD prevout.n ⟨0⟩).nValue
  if nValueIn = 0 then false
  else if blockFrom.GetBlockTime + params.nStakeMinAge > (nTimeTx : Int) then false
  else
    let bnTarget := setCompact nBits
    let hashProofOfStake := streamHash Hash
      (stakeKernelFields pindexPrev.nStakeModifier txPrev.nTime prevout.hash prevout.n nTimeTx)
    if hashProofOfStake / toUInt64 nValueIn > bnTarget then false
    else true

/-- Model of `CheckKernel` in `pos.cpp`.  The external lookups are passed
as capabilities: `GetTransaction` resolves an outpoint hash to the previous
transaction and its confirming block hash, `mapBlockIndex` resolves a block
hash, and `walletHasTx` is `pwalletMain->mapWallet.count(...)`.  The
`pBlockTime` out-parameter only copies a value out and is not modelled.
When the wallet lookup fails the source executes
`return("CheckProofOfStake(): Couldn't get Tx Index");`, a non-null string
literal converted to the boolean `true`. -/
def CheckKernel (Hash : List SerItem → Nat) (params : ConsensusParams)
    (GetTransaction : Nat → Option (CTransactionM × Nat))
    (mapBlockIndex : Nat → Option CBlockIndex)
    (walletHasTx : Nat → Bool)
    (pindexPrev : CBlockIndex) (nBits : Nat) (nTime : Nat) (prevout : COutPoint) : Bool :=
  match GetTransaction prevout.hash with
  | none => false
  | some (txPrev, hashBlock) =>
    match mapBlockIndex hashBlock with
    | none => false
    | some pblockindex =>
      if pblockindex.GetBlockTime + params.nStakeMinAge > (nTime : Int) then false
      else if walletHasTx prevout.hash = false then true
      else CheckStakeKernelHash Hash params pindexPrev nBits pblockindex
        (CCoinsOfTx txPrev) prevout nTime

theorem toUInt64_eq_toNat {v : Int} (h0 : 0 ≤ v) (h1 : v < 2 ^ 64) :
    toUInt64 v = v.toNat := by
  unfold toUInt64
  rw [Int.emod_eq_of_lt h0 (by exact_mod_cast h1)]

theorem toUInt32_eq_toNat {v : Int} (h0 : 0 ≤ v) (h1 : v < 2 ^ 32) :
    toUInt32 v = v.toNat := by
  unfold toUInt32
  rw [Int.emod_eq_of_lt h0 (by exact_mod_cast h1)]

/-- C2: for every hash and compact target, `CheckProofOfWork` returns true
exactly when the decoded target is well formed — not flagged negative, not
flagged overflowed, nonzero, and at most the PoW ceiling — and the hash,
read as a 256-bit unsigned integer, is at most the decoded target; in
particular it always returns false when the decode reports negative, zero,
or overflow, or when the decoded target exceeds the ceiling. -/
theorem CheckProofOfWork_iff (hash nBits : Nat) (params : ConsensusParams) :
    CheckProofOfWork hash nBits params = true ↔
      compactNegative nBits = false ∧ compactOverflow nBits = false ∧
        setCompact nBits ≠ 0 ∧ setCompact nBits ≤ params.powLimit ∧
        hash ≤ setCompact nBits := by
  simp only [CheckProofOfWork]
  split_ifs with h1 h2
  · simp only [Bool.false_eq_true, false_iff]
    intro ⟨hn, ho, hz, hl, _⟩
    rcases h1 with h | h | h | h
    · rw [hn] at h; exact Bool.false_ne_true h
    · exact hz h
    · rw [ho] at h; exact Bool.false_ne_true h
    · omega
  · simp only [Bool.false_eq_true, false_iff]
    intro ⟨_, _, _, _, hle⟩
    omega
  · push_neg at h1
    obtain ⟨hn, hz, ho, hl⟩ := h1
    simp only [true_iff]
    refine ⟨?_, ?_, hz, hl, by omega⟩
    · cases hb : compactNegative nBits
      · rfl
      · exact absurd hb hn
    · cases hb : compactOverflow nBits
      · rfl
      · exact absurd hb ho

/-- C9: for every timestamp, the header-only stake-timestamp check
`CheckStakeBlockTimestamp` returns true, because `CheckCoinStakeTimestamp`
can only return false when its two time arguments differ and it is called
here with the same time twice. -/
theorem CheckStakeBlockTimestamp_true (params : ConsensusParams) (nTimeBlock : Int) :
    CheckStakeBlockTimestamp params nTimeBlock = true := by
  simp [CheckStakeBlockTimestamp, CheckCoinStakeTimestamp]

/-- C8: `ComputeStakeModifier` returns the zero 256-bit value when the
previous block is absent, and otherwise the hash of the stream that
serializes the kernel hash first and the previous block's stake modifier
second. -/
theorem ComputeStakeModifier_spec (Hash : List SerItem → Nat) (kernel : Nat)
    (prev : CBlockIndex) :
    ComputeStakeModifier Hash none kernel = 0 ∧
      ComputeStakeModifier Hash (some prev) kernel =
        streamHash Hash [SerItem.u256 kernel, SerItem.u256 prev.nStakeModifier] :=
  ⟨rfl, rfl⟩

/-- C10: in `CheckKernel`, when the previous transaction and its confirming
block both resolve and the minimum-age check passes but the outpoint's
transaction hash is absent from the wallet map, the function returns true
— the non-null string literal converted to bool — for every hash function
and every compact target, i.e. without consulting the stake-kernel-hash
check at all. -/
theorem CheckKernel_wallet_miss_true (Hash : List SerItem → Nat)
    (params : ConsensusParams) (GetTransaction : Nat → Option (CTransactionM × Nat))
    (mapBlockIndex : Nat → Option CBlockIndex) (walletHasTx : Nat → Bool)
    (pindexPrev : CBlockIndex) (nBits : Nat) (nTime : Nat) (prevout : COutPoint)
    (txPrev : CTransactionM) (hashBlock : Nat) (pblockindex : CBlockIndex)
    (h1 : GetTransaction prevout.hash = some (txPrev, hashBlock))
    (h2 : mapBlockIndex hashBlock = some pblockindex)
    (h3 : pblockindex.GetBlockTime + params.nStakeMinAge ≤ (nTime : Int))
    (h4 : walletHasTx prevout.hash = false) :
    CheckKernel Hash params GetTransaction mapBlockIndex walletHasTx
      pindexPrev nBits nTime prevout = true := by
  simp only [CheckKernel, h1, h2]
  rw [if_neg (by omega)]
  rw [if_pos h4]

theorem CheckKernel_wallet_miss_true_witness :
    CheckKernel (fun _ => 0) ⟨2 ^ 224, 2 ^ 224, 60, 86400, 100, 15⟩
      (fun _ => some (⟨[⟨1000⟩], 50⟩, 21))
      (fun _ => some (CBlockIndex.mk none 0 40 0 0 false))
      (fun _ => false)
      (CBlockIndex.mk none 5 900 0 0 false) 0x1d00ffff 1000 ⟨7, 0⟩ = true :=
  CheckKernel_wallet_miss_true (fun _ => 0) ⟨2 ^ 224, 2 ^ 224, 60, 86400, 100, 15⟩
    (fun _ => some (⟨[⟨1000⟩], 50⟩, 21))
    (fun _ => some (CBlockIndex.mk none 0 40 0 0 false))
    (fun _ => false)
    (CBlockIndex.mk none 5 900 0 0 false) 0x1d00ffff 1000 ⟨7, 0⟩
    ⟨[⟨1000⟩], 50⟩ 21 (CBlockIndex.mk none 0 40 0 0 false)
    rfl rfl (by decide) rfl

/-- C1: whenever the staked output's value is positive (a nonzero `CAmount`
in its `int64_t` range) and the minimum-age check passes,
`CheckStakeKernelHash` succeeds exactly when the 256-bit hash of the
stream `stakeModifier || txPrev.nTime || prevout.hash || prevout.n ||
nTimeTx` — the five fields in exactly that order — integer-divided by the
staked value is at most the target decoded from the compact `nBits`. -/
theorem CheckStakeKernelHash_iff (Hash : List SerItem → Nat) (params : ConsensusParams)
    (pindexPrev : CBlockIndex) (nBits : Nat) (blockFrom : CBlockIndex)
    (txPrev : CCoins) (prevout : COutPoint) (nTimeTx : Nat)
    (hv : 0 < (txPrev.vout.getD prevout.n ⟨0⟩).nValue)
    (hv63 : (txPrev.vout.getD prevout.n ⟨0⟩).nValue < 2 ^ 63)
    (hage : blockFrom.GetBlockTime + params.nStakeMinAge ≤ (nTimeTx : Int)) :
    CheckStakeKernelHash Hash params pindexPrev nBits blockFrom txPrev prevout nTimeTx
        = true ↔
      streamHash Hash (stakeKernelFields pindexPrev.nStakeModifier txPrev.nTime
          prevout.hash prevout.n nTimeTx)
        / ((txPrev.vout.getD prevout.n ⟨0⟩).nValue).toNat ≤ setCompact nBits := by
  simp only [CheckStakeKernelHash]
  rw [if_neg (by omega), if_neg (by omega),
    toUInt64_eq_toNat (le_of_lt hv) (by omega)]
  split_ifs with h
  · simp only [Bool.false_eq_true, false_iff]
    omega
  · simp only [true_iff]
    omega

theorem CheckStakeKernelHash_iff_witness :
    CheckStakeKernelHash (fun _ => 0) ⟨2 ^ 224, 2 ^ 224, 60, 86400, 100, 15⟩
        (CBlockIndex.mk none 5 900 0 3 false) 0x1d00ffff
        (CBlockIndex.mk none 3 40 0 0 false) ⟨[⟨1000⟩], 50⟩ ⟨7, 0⟩ 1000 = true :=
  (CheckStakeKernelHash_iff (fun _ => 0) ⟨2 ^ 224, 2 ^ 224, 60, 86400, 100, 15⟩
    (CBlockIndex.mk none 5 900 0 3 false) 0x1d00ffff
    (CBlockIndex.mk none 3 40 0 0 false) ⟨[⟨1000⟩], 50⟩ ⟨7, 0⟩ 1000
    (by decide) (by decide) (by decide)).2 (by decide)

/-- C7: `CheckStakeKernelHash` returns false whenever the confirming
block's time plus the minimum stake age exceeds the candidate time,
regardless of the hash function, target, or staked value; it also returns
false whenever the staked output's value is zero; and at the exact
boundary, where the candidate time equals the confirming block's time plus
the minimum age, the age check passes: for a nonzero staked value the
result is exactly the kernel-hash target comparison. -/
theorem CheckStakeKernelHash_min_age (Hash : List SerItem → Nat)
    (params : ConsensusParams) (pindexPrev : CBlockIndex) (nBits : Nat)
    (blockFrom : CBlockIndex) (txPrev : CCoins) (prevout : COutPoint) (nTimeTx : Nat) :
    (blockFrom.GetBlockTime + params.nStakeMinAge > (nTimeTx : Int) →
      CheckStakeKernelHash Hash params pindexPrev nBits blockFrom txPrev prevout nTimeTx
        = false) ∧
    ((txPrev.vout.getD prevout.n ⟨0⟩).nValue = 0 →
      CheckStakeKernelHash Hash params pindexPrev nBits blockFrom txPrev prevout nTimeTx
        = false) ∧
    (blockFrom.GetBlockTime + params.nStakeMinAge = (nTimeTx : Int) →
      (txPrev.vout.getD prevout.n ⟨0⟩).nValue ≠ 0 →
      CheckStakeKernelHash Hash params pindexPrev nBits blockFrom txPrev prevout nTimeTx
        = decide (streamHash Hash (stakeKernelFields pindexPrev.nStakeModifier txPrev.nTime
            prevout.hash prevout.n nTimeTx)
          / toUInt64 ((txPrev.vout.getD prevout.n ⟨0⟩).nValue) ≤ setCompact nBits)) := by
  refine ⟨?_, ?_, ?_⟩
  · intro hage
    simp only [CheckStakeKernelHash]
    split_ifs <;> rfl
  · intro hzero
    simp only [CheckStakeKernelHash]
    rw [if_pos hzero]
  · intro hb hnz
    simp only [CheckStakeKernelHash]
    rw [if_neg hnz, if_neg (by omega)]
    split_ifs with h
    · symm
      rw [decide_eq_false_iff_not]
      omega
    · symm
      rw [decide_eq_true_eq]
      omega

theorem CheckStakeKernelHash_min_age_witness :
    CheckStakeKernelHash (fun _ => 0) ⟨2 ^ 224, 2 ^ 224, 60, 86400, 100, 15⟩
        (CBlockIndex.mk none 5 900 0 3 false) 0x1d00ffff
        (CBlockIndex.mk none 3 40 0 0 false) ⟨[⟨1000⟩], 50⟩ ⟨7, 0⟩ 139 = false ∧
    CheckStakeKernelHash (fun _ => 0) ⟨2 ^ 224, 2 ^ 224, 60, 86400, 100, 15⟩
        (CBlockIndex.mk none 5 900 0 3 false) 0x1d00ffff
        (CBlockIndex.mk none 3 40 0 0 false) ⟨[⟨0⟩], 50⟩ ⟨7, 0⟩ 1000 = false ∧
    CheckStakeKernelHash (fun _ => 0) ⟨2 ^ 224, 2 ^ 224, 60, 86400, 100, 15⟩
        (CBlockIndex.mk none 5 900 0 3 false) 0x1d00ffff
        (CBlockIndex.mk none 3 40 0 0 false) ⟨[⟨1000⟩], 50⟩ ⟨7, 0⟩ 140 =
      decide (streamHash (fun _ => 0) (stakeKernelFields 3 50 7 0 140)
        / toUInt64 1000 ≤ setCompact 0x1d00ffff) :=
  ⟨(CheckStakeKernelHash_min_age (fun _ => 0) ⟨2 ^ 224, 2 ^ 224, 60, 86400, 100, 15⟩
      (CBlockIndex.mk none 5 900 0 3 false) 0x1d00ffff
      (CBlockIndex.mk none 3 40 0 0 false) ⟨[⟨1000⟩], 50⟩ ⟨7, 0⟩ 139).1 (by decide),
   (CheckStakeKernelHash_min_age (fun _ => 0) ⟨2 ^ 224, 2 ^ 224, 60, 86400, 100, 15⟩
      (CBlockIndex.mk none 5 900 0 3 false) 0x1d00ffff
      (CBlockIndex.mk none 3 40 0 0 false) ⟨[⟨0⟩], 50⟩ ⟨7, 0⟩ 1000).2.1 (by decide),
   (CheckStakeKernelHash_min_age (fun _ => 0) ⟨2 ^ 224, 2 ^ 224, 60, 86400, 100, 15⟩
      (CBlockIndex.mk none 5 900 0 3 false) 0x1d00ffff
      (CBlockIndex.mk none 3 40 0 0 false) ⟨[⟨1000⟩], 50⟩ ⟨7, 0⟩ 140).2.2
      (by decide) (by decide)⟩

theorem pack_div {a : Nat} (c : Nat) (ha : a < 2 ^ 24) : (a + c * 2 ^ 24) / 2 ^ 24 = c := by
  rw [Nat.add_mul_div_right _ _ (by norm_num : 0 < (2 : Nat) ^ 24), Nat.div_eq_of_lt ha]
  omega

theorem pack_mod (a c : Nat) : (a + c * 2 ^ 24) % 2 ^ 23 = a % 2 ^ 23 := by
  have h : c * 2 ^ 24 = c * 2 * 2 ^ 23 := by ring
  rw [h, Nat.add_mul_mod_self_right]

theorem setCompact_eval (nCompact : Nat) :
    setCompact nCompact =
      if nCompact / 2 ^ 24 ≤ 3 then nCompact % 2 ^ 23 / 2 ^ (8 * (3 - nCompact / 2 ^ 24))
      else nCompact % 2 ^ 23 * 2 ^ (8 * (nCompact / 2 ^ 24 - 3)) % 2 ^ 256 := rfl

/-- Decoding the compact encoding of a 256-bit value never exceeds the
value: `GetCompact` truncates the mantissa, so `SetCompact . GetCompact`
rounds down. -/
theorem setCompact_getCompact_le {x : Nat} (hx : x < 2 ^ 256) :
    setCompact (getCompact x) ≤ x := by
  set s := getCompactSize x with hsdef
  have hbs : bits x ≤ 8 * s := by rw [hsdef]; unfold getCompactSize; omega
  have hx8 : x < 2 ^ (8 * s) :=
    lt_of_lt_of_le (lt_two_pow_bits hx) (Nat.pow_le_pow_right (by norm_num) hbs)
  by_cases hsz : s ≤ 3
  · -- sizes up to three bytes: the mantissa is the value shifted left
    have hx24 : x < 2 ^ 24 :=
      lt_of_lt_of_le hx8 (Nat.pow_le_pow_right (by norm_num) (by omega))
    have hprod : x * 2 ^ (8 * (3 - s)) < 2 ^ 24 := by
      calc x * 2 ^ (8 * (3 - s))
          < 2 ^ (8 * s) * 2 ^ (8 * (3 - s)) :=
            mul_lt_mul_of_pos_right hx8 (Nat.two_pow_pos _)
        _ = 2 ^ 24 := by rw [← pow_add]; congr 1; omega
    have hm : getCompactMantissa x = x * 2 ^ (8 * (3 - s)) := by
      unfold getCompactMantissa
      rw [← hsdef, if_pos hsz,
        Nat.mod_eq_of_lt (show x < 2 ^ 64 from lt_trans hx24 (by norm_num)),
        Nat.mod_eq_of_lt (lt_trans hprod (by norm_num))]
    unfold getCompact
    rw [← hsdef, hm]
    by_cases hbit : x * 2 ^ (8 * (3 - s)) / 2 ^ 23 % 2 = 1
    · -- compact sign bit set: mantissa dropped a byte, exponent bumped
      rw [if_pos hbit]
      have ha : x * 2 ^ (8 * (3 - s)) / 2 ^ 8 < 2 ^ 24 :=
        lt_of_le_of_lt (Nat.div_le_self _ _) hprod
      rw [setCompact_eval, pack_div _ ha, pack_mod]
      have hlt23 : x * 2 ^ (8 * (3 - s)) / 2 ^ 8 < 2 ^ 23 := by
        have h16 : x * 2 ^ (8 * (3 - s)) / 2 ^ 8 < 2 ^ 16 :=
          (Nat.div_lt_iff_lt_mul (by norm_num : 0 < (2 : Nat) ^ 8)).2
            (by calc x * 2 ^ (8 * (3 - s)) < 2 ^ 24 := hprod
              _ = 2 ^ 16 * 2 ^ 8 := by norm_num)
        exact lt_trans h16 (by norm_num)
      rw [Nat.mod_eq_of_lt hlt23]
      by_cases hss : s + 1 ≤ 3
      · rw [if_pos hss, Nat.div_div_eq_div_mul, ← pow_add,
          show 8 + 8 * (3 - (s + 1)) = 8 * (3 - s) by omega]
        exact le_of_eq (Nat.mul_div_cancel _ (Nat.two_pow_pos _))
      · have hs3 : s = 3 := by omega
        rw [if_neg hss, hs3]
        simp only [Nat.sub_self, Nat.mul_zero, pow_zero, Nat.mul_one,
          show 3 + 1 - 3 = 1 by norm_num]
        calc x / 2 ^ 8 * 2 ^ (8 * 1) % 2 ^ 256 ≤ x / 2 ^ 8 * 2 ^ (8 * 1) :=
            Nat.mod_le _ _
          _ = x / 2 ^ 8 * 2 ^ 8 := by norm_num
          _ ≤ x := Nat.div_mul_le_self _ _
    · rw [if_neg hbit]
      rw [setCompact_eval, pack_div _ hprod, pack_mod, if_pos hsz]
      calc x * 2 ^ (8 * (3 - s)) % 2 ^ 23 / 2 ^ (8 * (3 - s))
          ≤ x * 2 ^ (8 * (3 - s)) / 2 ^ (8 * (3 - s)) :=
            Nat.div_le_div_right (Nat.mod_le _ _)
        _ = x := Nat.mul_div_cancel _ (Nat.two_pow_pos _)
  · -- sizes above three bytes: the mantissa is the value shifted right
    have hdiv24 : x / 2 ^ (8 * (s - 3)) < 2 ^ 24 :=
      (Nat.div_lt_iff_lt_mul (Nat.two_pow_pos _)).2
        (by calc x < 2 ^ (8 * s) := hx8
          _ = 2 ^ 24 * 2 ^ (8 * (s - 3)) := by rw [← pow_add]; congr 1; omega)
    have hm : getCompactMantissa x = x / 2 ^ (8 * (s - 3)) := by
      unfold getCompactMantissa
      rw [← hsdef, if_neg hsz,
        Nat.mod_eq_of_lt (lt_trans hdiv24 (by norm_num)),
        Nat.mod_eq_of_lt (lt_trans hdiv24 (by norm_num))]
    unfold getCompact
    rw [← hsdef, hm]
    by_cases hbit : x / 2 ^ (8 * (s - 3)) / 2 ^ 23 % 2 = 1
    · rw [if_pos hbit]
      have ha : x / 2 ^ (8 * (s - 3)) / 2 ^ 8 < 2 ^ 24 :=
        lt_of_le_of_lt (Nat.div_le_self _ _) hdiv24
      rw [setCompact_eval, pack_div _ ha, pack_mod]
      rw [if_neg (by omega), Nat.div_div_eq_div_mul, ← pow_add]
      calc x / 2 ^ (8 * (s - 3) + 8) % 2 ^ 23 * 2 ^ (8 * (s + 1 - 3)) % 2 ^ 256
          ≤ x / 2 ^ (8 * (s - 3) + 8) % 2 ^ 23 * 2 ^ (8 * (s + 1 - 3)) := Nat.mod_le _ _
        _ ≤ x / 2 ^ (8 * (s - 3) + 8) * 2 ^ (8 * (s + 1 - 3)) :=
            Nat.mul_le_mul_right _ (Nat.mod_le _ _)
        _ = x / 2 ^ (8 * (s + 1 - 3)) * 2 ^ (8 * (s + 1 - 3)) := by
            rw [show 8 * (s - 3) + 8 = 8 * (s + 1 - 3) by omega]
        _ ≤ x := Nat.div_mul_le_self _ _
    · rw [if_neg hbit]
      rw [setCompact_eval, pack_div _ hdiv24, pack_mod, if_neg hsz]
      calc x / 2 ^ (8 * (s - 3)) % 2 ^ 23 * 2 ^ (8 * (s - 3)) % 2 ^ 256
          ≤ x / 2 ^ (8 * (s - 3)) % 2 ^ 23 * 2 ^ (8 * (s - 3)) := Nat.mod_le _ _
        _ ≤ x / 2 ^ (8 * (s - 3)) * 2 ^ (8 * (s - 3)) :=
            Nat.mul_le_mul_right _ (Nat.mod_le _ _)
        _ ≤ x := Nat.div_mul_le_self _ _

theorem tdiv_four_ofNat (m : Nat) : Int.tdiv (m : Int) 4 = ((m / 4 : Nat) : Int) := rfl

theorem clampTimespan_bounds (nActualTimespan : Int) (params : ConsensusParams)
    (hT : 0 ≤ params.nPowTargetTimespan) :
    Int.tdiv params.nPowTargetTimespan 4 ≤ clampTimespan nActualTimespan params ∧
      clampTimespan nActualTimespan params ≤ params.nPowTargetTimespan * 4 := by
  obtain ⟨n, hn⟩ := Int.eq_ofNat_of_zero_le hT
  simp only [clampTimespan, hn, tdiv_four_ofNat]
  split_ifs <;> constructor <;> omega

theorem clamp_le (L v : Nat) : (if v ≤ 0 ∨ v > L then L else v) ≤ L := by
  split_ifs with h
  · exact le_rfl
  · push_neg at h
    exact h.2

theorem getCompact_clamp_le {L : Nat} (v : Nat) (hL : L < 2 ^ 256) :
    setCompact (getCompact (if v ≤ 0 ∨ v > L then L else v)) ≤ L :=
  le_trans (setCompact_getCompact_le (lt_of_le_of_lt (clamp_le L v) hL)) (clamp_le L v)

/-- C4: for all inputs (with the network constants in their C++ value
ranges: a non-negative target timespan and a `uint256` ceiling), the value
decoded from the compact target returned by `CalculateNextWorkRequired`
never exceeds the proof-type-specific ceiling selected by the
`fProofOfStake` flag, and the timespan actually used in the scaling step —
`clampTimespan` of the observed timespan, which is exactly what the
function feeds into the scaling — always lies in
`[nPowTargetTimespan/4, nPowTargetTimespan*4]`. -/
theorem CalculateNextWorkRequired_bounded (pindexLast : CBlockIndex)
    (nFirstBlockTime : Int) (params : ConsensusParams) (fProofOfStake : Bool)
    (hT : 0 ≤ params.nPowTargetTimespan)
    (hL : GetTargetLimit pindexLast.GetBlockTime fProofOfStake params < 2 ^ 256) :
    setCompact (CalculateNextWorkRequired pindexLast nFirstBlockTime params fProofOfStake)
        ≤ GetTargetLimit pindexLast.GetBlockTime fProofOfStake params ∧
      Int.tdiv params.nPowTargetTimespan 4 ≤
        clampTimespan (pindexLast.GetBlockTime - nFirstBlockTime) params ∧
      clampTimespan (pindexLast.GetBlockTime - nFirstBlockTime) params ≤
        params.nPowTargetTimespan * 4 := by
  refine ⟨?_, (clampTimespan_bounds _ _ hT).1, (clampTimespan_bounds _ _ hT).2⟩
  simp only [CalculateNextWorkRequired]
  exact getCompact_clamp_le _ hL

theorem CalculateNextWorkRequired_bounded_witness :
    setCompact (CalculateNextWorkRequired (CBlockIndex.mk none 2 90000 0x1d00ffff 0 false)
        3600 ⟨0xffff * 2 ^ 208, 0xffff * 2 ^ 208, 60, 86400, 100, 15⟩ false)
        ≤ GetTargetLimit (CBlockIndex.mk none 2 90000 0x1d00ffff 0 false).GetBlockTime
          false ⟨0xffff * 2 ^ 208, 0xffff * 2 ^ 208, 60, 86400, 100, 15⟩ ∧
      Int.tdiv (86400 : Int) 4 ≤ clampTimespan
        ((CBlockIndex.mk none 2 90000 0x1d00ffff 0 false).GetBlockTime - 3600)
        ⟨0xffff * 2 ^ 208, 0xffff * 2 ^ 208, 60, 86400, 100, 15⟩ ∧
      clampTimespan ((CBlockIndex.mk none 2 90000 0x1d00ffff 0 false).GetBlockTime - 3600)
        ⟨0xffff * 2 ^ 208, 0xffff * 2 ^ 208, 60, 86400, 100, 15⟩ ≤ (86400 : Int) * 4 :=
  CalculateNextWorkRequired_bounded (CBlockIndex.mk none 2 90000 0x1d00ffff 0 false)
    3600 ⟨0xffff * 2 ^ 208, 0xffff * 2 ^ 208, 60, 86400, 100, 15⟩ false
    (by decide) (by decide)

/-- C5 counterexample: a concrete last block whose compact target
`0x02000100` decodes to the valid value 1 (not negative, not overflowed,
nonzero, below the ceiling), with the observed timespan exactly equal to
the target timespan, for which `CalculateNextWorkRequired` does not return
the block's compact target: the decoded value 1 re-encodes to the
canonical compact form `0x01010000`, not to the non-canonical `0x02000100`
that the block carries. -/
theorem CalculateNextWorkRequired_not_idempotent :
    compactNegative 0x02000100 = false ∧ compactOverflow 0x02000100 = false ∧
      0 < setCompact 0x02000100 ∧
      setCompact 0x02000100 ≤ GetTargetLimit
        (CBlockIndex.mk none 0 90000 0x02000100 0 false).GetBlockTime false
        ⟨0xffff * 2 ^ 208, 0xffff * 2 ^ 208, 60, 86400, 100, 15⟩ ∧
      (CBlockIndex.mk none 0 90000 0x02000100 0 false).GetBlockTime - 3600 =
        (86400 : Int) ∧
      CalculateNextWorkRequired (CBlockIndex.mk none 0 90000 0x02000100 0 false) 3600
          ⟨0xffff * 2 ^ 208, 0xffff * 2 ^ 208, 60, 86400, 100, 15⟩ false ≠
        (CBlockIndex.mk none 0 90000 0x02000100 0 false).nBits := by
  set_option maxRecDepth 4096 in
  exact ⟨by decide, by decide, by decide, by decide, by decide, by decide⟩

/-- C5 (amended): for every last block whose compact target decodes to a
valid value — not flagged negative or overflowed, nonzero, and at most the
ceiling selected by the `fProofOfStake` flag — and whose `nBits` is the
canonical compact encoding of that value, if the observed timespan exactly
equals the target timespan (network constants in their C++ value ranges),
the scaling multiplication does not wrap modulo `2^256`, and the decoded
value is even whenever the overflow-guard shift applies, then
`CalculateNextWorkRequired` returns the last block's compact target
unchanged: no drift is introduced by the clamp, the shift, or the
re-encoding under these conditions. -/
theorem CalculateNextWorkRequired_idempotent (pindexLast : CBlockIndex)
    (nFirstBlockTime : Int) (params : ConsensusParams) (fProofOfStake : Bool)
    (hneg : compactNegative pindexLast.nBits = false)
    (hovf : compactOverflow pindexLast.nBits = false)
    (hx : 0 < setCompact pindexLast.nBits)
    (hxL : setCompact pindexLast.nBits ≤
      GetTargetLimit pindexLast.GetBlockTime fProofOfStake params)
    (hL : GetTargetLimit pindexLast.GetBlockTime fProofOfStake params < 2 ^ 256)
    (hT : 0 < params.nPowTargetTimespan) (hT32 : params.nPowTargetTimespan < 2 ^ 32)
    (hspan : pindexLast.GetBlockTime - nFirstBlockTime = params.nPowTargetTimespan)
    (hcanon : getCompact (setCompact pindexLast.nBits) = pindexLast.nBits)
    (hshift : fShiftFlag (setCompact pindexLast.nBits)
        (GetTargetLimit pindexLast.GetBlockTime fProofOfStake params) = true →
      2 ∣ setCompact pindexLast.nBits ∧
        setCompact pindexLast.nBits / 2 * params.nPowTargetTimespan.toNat < 2 ^ 256)
    (hnoshift : fShiftFlag (setCompact pindexLast.nBits)
        (GetTargetLimit pindexLast.GetBlockTime fProofOfStake params) = false →
      setCompact pindexLast.nBits * params.nPowTargetTimespan.toNat < 2 ^ 256) :
    CalculateNextWorkRequired pindexLast nFirstBlockTime params fProofOfStake =
      pindexLast.nBits := by
  have hclamp : clampTimespan (pindexLast.GetBlockTime - nFirstBlockTime) params =
      params.nPowTargetTimespan := by
    rw [hspan]
    obtain ⟨n, hn⟩ := Int.eq_ofNat_of_zero_le (le_of_lt hT)
    simp only [clampTimespan, hn, tdiv_four_ofNat]
    split_ifs <;> omega
  have ht64 : toUInt64 params.nPowTargetTimespan = params.nPowTargetTimespan.toNat :=
    toUInt64_eq_toNat (le_of_lt hT) (by omega)
  have ht32 : toUInt32 params.nPowTargetTimespan = params.nPowTargetTimespan.toNat :=
    toUInt32_eq_toNat (le_of_lt hT) hT32
  have htN : 0 < params.nPowTargetTimespan.toNat := by omega
  have hx256 : setCompact pindexLast.nBits < 2 ^ 256 := lt_of_le_of_lt hxL hL
  simp only [CalculateNextWorkRequired, hclamp, ht64, ht32]
  cases hsh : fShiftFlag (setCompact pindexLast.nBits)
      (GetTargetLimit pindexLast.GetBlockTime fProofOfStake params) with
  | true =>
    obtain ⟨heven, hwrap⟩ := hshift hsh
    rw [if_pos (rfl : true = true), if_pos (rfl : true = true)]
    rw [Nat.mod_eq_of_lt hwrap, Nat.mul_div_cancel _ htN, Nat.div_mul_cancel heven,
      Nat.mod_eq_of_lt hx256]
    rw [if_neg (by omega)]
    exact hcanon
  | false =>
    have hwrap := hnoshift hsh
    rw [if_neg (Bool.false_ne_true), if_neg (Bool.false_ne_true)]
    rw [Nat.mod_eq_of_lt hwrap, Nat.mul_div_cancel _ htN]
    rw [if_neg (by omega)]
    exact hcanon

set_option maxRecDepth 4096 in
theorem CalculateNextWorkRequired_idempotent_witness :
    CalculateNextWorkRequired (CBlockIndex.mk none 0 90000 0x1d00ffff 0 false) 3600
      ⟨0xffff * 2 ^ 208, 0xffff * 2 ^ 208, 60, 86400, 100, 15⟩ false = 0x1d00ffff :=
  CalculateNextWorkRequired_idempotent (CBlockIndex.mk none 0 90000 0x1d00ffff 0 false)
    3600 ⟨0xffff * 2 ^ 208, 0xffff * 2 ^ 208, 60, 86400, 100, 15⟩ false
    (by decide) (by decide) (by decide) (by decide) (by decide) (by decide)
    (by decide) (by decide) (by decide) (by decide) (by decide)

/-- C6: in `GetNextWorkRequired`, for every non-PoS call past the bootstrap
and PoW-ancestor checks, when the candidate's timestamp exceeds the last
block's timestamp by more than five times the target spacing the function
returns the PoW ceiling in compact form, before the fast-block halving and
the retarget computation. -/
theorem GetNextWorkRequired_fast_reset (BLOCK_HEIGHT_INIT : Int) (last : CBlockIndex)
    (pblock : CBlockHeader) (params : ConsensusParams) (pindexPrev p : CBlockIndex)
    (h1 : BLOCK_HEIGHT_INIT < last.nHeight)
    (h2 : GetLastBlockIndex (some last) false = some pindexPrev)
    (h3 : pindexPrev.pprev = some p)
    (h4 : last.GetBlockTime + params.nPowTargetSpacing * 5 < pblock.GetBlockTime) :
    GetNextWorkRequired BLOCK_HEIGHT_INIT (some last) pblock false params =
      some (getCompact params.powLimit) := by
  simp only [GetNextWorkRequired]
  rw [if_neg (show ¬(false = true) by simp)]
  rw [if_neg (show ¬(last.nHeight ≤ BLOCK_HEIGHT_INIT) by omega)]
  simp only [h2, h3]
  rw [if_pos (show pblock.GetBlockTime > last.GetBlockTime +
    params.nPowTargetSpacing * 5 by omega)]

theorem GetNextWorkRequired_fast_reset_witness :
    GetNextWorkRequired 0
      (some (CBlockIndex.mk
        (some (CBlockIndex.mk (some (CBlockIndex.mk none 0 0 0 0 false)) 1 500 0x1d00ffff 0 false))
        2 1000 0x1d00ffff 0 false))
      ⟨1301⟩ false ⟨0xffff * 2 ^ 208, 0xffff * 2 ^ 208, 60, 86400, 100, 15⟩ =
      some (getCompact (0xffff * 2 ^ 208)) :=
  GetNextWorkRequired_fast_reset 0
    (CBlockIndex.mk
      (some (CBlockIndex.mk (some (CBlockIndex.mk none 0 0 0 0 false)) 1 500 0x1d00ffff 0 false))
      2 1000 0x1d00ffff 0 false)
    ⟨1301⟩ ⟨0xffff * 2 ^ 208, 0xffff * 2 ^ 208, 60, 86400, 100, 15⟩
    (CBlockIndex.mk
      (some (CBlockIndex.mk (some (CBlockIndex.mk none 0 0 0 0 false)) 1 500 0x1d00ffff 0 false))
      2 1000 0x1d00ffff 0 false)
    (CBlockIndex.mk (some (CBlockIndex.mk none 0 0 0 0 false)) 1 500 0x1d00ffff 0 false)
    (by decide) rfl rfl (by decide)

/-- C3 counterexample: a concrete non-PoS call that takes the fast-block
branch.  The function returns `0x1d00ffff / 2 = 0x0e807fff`, the 32-bit
compact field divided by two, and the value that compact decodes to is not
half of the previous block's decoded target. -/
theorem GetNextWorkRequired_too_fast_not_half_target :
    GetNextWorkRequired 0
      (some (CBlockIndex.mk
        (some (CBlockIndex.mk (some (CBlockIndex.mk none 0 0 0 0 false)) 1 500 0x1d00ffff 0 false))
        2 1000 0x1d00ffff 0 false))
      ⟨1005⟩ false ⟨0xffff * 2 ^ 208, 0xffff * 2 ^ 208, 60, 86400, 100, 15⟩ =
        some 0x0e807fff ∧
      setCompact 0x0e807fff ≠ setCompact 0x1d00ffff / 2 := by
  constructor
  · decide
  · decide

/-- C3 (amended): in `GetNextWorkRequired`, for every non-PoS call that
reaches the fast-block rule — candidate timestamp strictly below the last
block's timestamp plus targetSpacing/3, with the bootstrap,
missing-PoW-ancestor, and fast-reset cases not applying — the function
returns `pindexLast->nBits / 2`: the 32-bit compact representation of the
previous target divided by two as an unsigned integer (which is not, in
general, a compact target that decodes to half of the previous decoded
target). -/
theorem GetNextWorkRequired_too_fast (BLOCK_HEIGHT_INIT : Int) (last : CBlockIndex)
    (pblock : CBlockHeader) (params : ConsensusParams) (pindexPrev p : CBlockIndex)
    (h1 : BLOCK_HEIGHT_INIT < last.nHeight)
    (h2 : GetLastBlockIndex (some last) false = some pindexPrev)
    (h3 : pindexPrev.pprev = some p)
    (h4 : pblock.GetBlockTime ≤ last.GetBlockTime + params.nPowTargetSpacing * 5)
    (h5 : pblock.GetBlockTime < last.GetBlockTime + Int.tdiv params.nPowTargetSpacing 3) :
    GetNextWorkRequired BLOCK_HEIGHT_INIT (some last) pblock false params =
      some (last.nBits / 2) := by
  simp only [GetNextWorkRequired]
  rw [if_neg (show ¬(false = true) by simp)]
  rw [if_neg (show ¬(last.nHeight ≤ BLOCK_HEIGHT_INIT) by omega)]
  simp only [h2, h3]
  rw [if_neg (show ¬(pblock.GetBlockTime > last.GetBlockTime +
    params.nPowTargetSpacing * 5) by omega)]
  rw [if_pos h5]

theorem GetNextWorkRequired_too_fast_witness :
    GetNextWorkRequired 0
      (some (CBlockIndex.mk
        (some (CBlockIndex.mk (some (CBlockIndex.mk none 0 0 0 0 false)) 1 500 0x1d00ffff 0 false))
        2 1000 0x1d00ffff 0 false))
      ⟨1005⟩ false ⟨0xffff * 2 ^ 208, 0xffff * 2 ^ 208, 60, 86400, 100, 15⟩ =
      some (0x1d00ffff / 2) :=
  GetNextWorkRequired_too_fast 0
    (CBlockIndex.mk
      (some (CBlockIndex.mk (some (CBlockIndex.mk none 0 0 0 0 false)) 1 500 0x1d00ffff 0 false))
      2 1000 0x1d00ffff 0 false)
    ⟨1005⟩ ⟨0xffff * 2 ^ 208, 0xffff * 2 ^ 208, 60, 86400, 100, 15⟩
    (CBlockIndex.mk
      (some (CBlockIndex.mk (some (CBlockIndex.mk none 0 0 0 0 false)) 1 500 0x1d00ffff 0 false))
      2 1000 0x1d00ffff 0 false)
    (CBlockIndex.mk (some (CBlockIndex.mk none 0 0 0 0 false)) 1 500 0x1d00ffff 0 false)
    (by decide) rfl rfl (by decide) (by decide)

end JBCoin
